import Mathlib

/-
Verification of the session-persistence and streaming core of the
Mustafa-AI-Application chat client.

The repository is TypeScript; this file is a shallow embedding of the parts
of the code that the verified properties are about:

* `types.ts`            — the data model (Attachment, Message, ChatSession);
* `services/storage.ts` — the IndexedDB store (two variants of the file:
  the first half keeps `loadSessionsFromDB`/`saveSessionsToDB`, the second
  half keeps `loadSessionsFromDB`/`saveSessionToDB`/`deleteSessionFromDB`),
  including the version-1 to version-2 migration in `initDB`;
* `App.tsx` and `unnamed/part_000` — the two variants of the
  `handleSendMessage` orchestration (session creation, user append, stream
  consumption, error substitution);
* `unnamed/part_001` — `generateContentStream` (history formatting and the
  thinking-budget configuration).

Modelling conventions:
* JS numbers used as epoch-millis timestamps are `Nat`; the thinking budget
  is `Int` (callers may pass negative values).
* `Date.now()` is a parameter `now`; consecutive reads inside one call are
  modelled as returning the same value (the code itself tolerates equal
  reads: it disambiguates ids with `Date.now() + 1` and `Date.now() + 2`).
* An IndexedDB object store with `keyPath: 'id'` is an association list of
  key/record pairs; `put` replaces the record with the same key in place or
  appends a new one.
* Asynchronous storage and stream effects performed by one call are
  recorded in an effect trace (`Ev`); the order of events in the trace is
  the order in which the awaited operations are issued by the code.
* A stream is its list of yielded text fragments plus an optional error
  raised after them (`StreamOutcome`).
* base64/UTF-8 decoding of text attachments (`decodeURIComponent(escape(
  atob(...)))`) is an external runtime facility; the decoded inline text
  part is modelled by a dedicated constructor carrying the attachment name
  and raw data, which the code's translation injects into the part list.
-/

namespace ChatApp

/-- Attachment record from `types.ts`: `data` is the base64 payload text. -/
structure Attachment where
  name : String
  mimeType : String
  data : String
deriving DecidableEq

/-- Message role, the union type `'user' | 'model'` from `types.ts`. -/
inductive Role where
  | user
  | model
deriving DecidableEq

/-- Message record from `types.ts`. The optional `attachments?` field is
the empty list when absent and the optional `isError?` flag is `false`
when absent. -/
structure Message where
  id : String
  role : Role
  text : String
  attachments : List Attachment
  timestamp : Nat
  isError : Bool
deriving DecidableEq

/-- ChatSession record from `types.ts`. The `part_000` variant of the app
additionally writes an `updatedAt` field that the declared interface does
not have, so it is modelled as optional. -/
structure ChatSession where
  id : String
  title : String
  messages : List Message
  createdAt : Nat
  updatedAt : Option Nat
deriving DecidableEq

/-- Contents of the `chat_sessions` object store of `services/storage.ts`
(`keyPath: 'id'`): an association list of key/record pairs. -/
abbrev Store := List (String × ChatSession)

/-- `store.put(session)` on the `chat_sessions` store (`keyPath: 'id'`):
upsert keyed by `session.id` — replace the record with that key if one
exists, otherwise add a new record. -/
def storePut (store : Store) (s : ChatSession) : Store :=
  if store.any (fun p => p.1 == s.id) then
    store.map (fun p => if p.1 == s.id then (s.id, s) else p)
  else
    store ++ [(s.id, s)]

/-- `store.get(key)` on a session store: the record stored under `key`. -/
def lookupStore (store : Store) (key : String) : Option ChatSession :=
  (store.find? (fun p => p.1 == key)).map Prod.snd

/-- `db.getAll('chat_sessions')`: every stored session record. -/
def getAllSessions (store : Store) : List ChatSession :=
  store.map Prod.snd

/-- A value found in the legacy `sessions` object store. The migration in
`initDB` only acts when the value under `'all_sessions'` passes the
`Array.isArray` check; anything else is ignored. -/
inductive LegacyVal where
  | arr (sessions : List ChatSession)
  | other
deriving DecidableEq

/-- The migration body inside the `upgrade` callback of `initDB`
(`services/storage.ts`): read the blob stored under the fixed key
`'all_sessions'` in the legacy `sessions` store and, if it is an array,
`put` every session of the array into the `chat_sessions` store (keyed by
the session's `id`). Anything else leaves the current store unchanged. -/
def runMigration (legacy : List (String × LegacyVal)) (current : Store) : Store :=
  match (legacy.find? (fun p => p.1 == "all_sessions")).map Prod.snd with
  | some (LegacyVal.arr ss) => ss.foldl storePut current
  | _ => current

/-- The IndexedDB database `GeminiAppDB` as seen by the `upgrade` callback:
its recorded version, the names of its object stores, the contents of the
legacy `sessions` store and of the current `chat_sessions` store. -/
structure IDB where
  version : Nat
  storeNames : List String
  legacy : List (String × LegacyVal)
  current : Store
deriving DecidableEq

/-- The `upgrade` callback of `initDB` in `services/storage.ts` (identical
in both variants of the file): create the `chat_sessions` store if absent,
then, when upgrading from a version below 2 while a legacy `sessions`
store exists, run the legacy migration. The database version afterwards is
`DB_VERSION = 2`. -/
def upgradeDB (db : IDB) : IDB :=
  let db1 :=
    if db.storeNames.contains "chat_sessions" then db
    else { db with storeNames := db.storeNames ++ ["chat_sessions"], current := [] }
  if db.version < 2 ∧ db.storeNames.contains "sessions" = true then
    { db1 with version := 2, current := runMigration db1.legacy db1.current }
  else
    { db1 with version := 2 }

/-- Sorting relation of the first `loadSessionsFromDB` variant
(`storage.ts` lines 50-55): the comparator `a.createdAt - b.createdAt`
orders by `createdAt` ascending. -/
def ascLe (a b : ChatSession) : Prop := a.createdAt ≤ b.createdAt

/-- Sorting relation of the second `loadSessionsFromDB` variant
(`storage.ts` lines 123-133): the comparator `b.createdAt - a.createdAt`
orders by `createdAt` descending. -/
def descLe (a b : ChatSession) : Prop := b.createdAt ≤ a.createdAt

instance : DecidableRel ascLe := fun a b => Nat.decLe a.createdAt b.createdAt

instance : DecidableRel descLe := fun a b => Nat.decLe b.createdAt a.createdAt

instance : IsTotal ChatSession ascLe := ⟨fun a b => Nat.le_total a.createdAt b.createdAt⟩

instance : IsTrans ChatSession ascLe := ⟨fun _ _ _ h1 h2 => Nat.le_trans h1 h2⟩

instance : IsTotal ChatSession descLe := ⟨fun a b => Nat.le_total b.createdAt a.createdAt⟩

instance : IsTrans ChatSession descLe := ⟨fun _ _ _ h1 h2 => Nat.le_trans h2 h1⟩

/-- First variant of `loadSessionsFromDB` (`storage.ts` lines 50-55). The
result of awaiting `initDB`/`getAll` is the `Except` argument; there is no
try/catch in this variant, so a store failure propagates as a rejection.
On success the sessions are sorted by `a.createdAt - b.createdAt`
(ascending). -/
def loadSessionsFromDB_v1 (dbResult : Except String Store) : Except String (List ChatSession) :=
  match dbResult with
  | Except.error e => Except.error e
  | Except.ok store => Except.ok ((getAllSessions store).insertionSort ascLe)

/-- Second variant of `loadSessionsFromDB` (`storage.ts` lines 123-133).
The body is wrapped in try/catch: a store failure is caught and the
function returns the empty list. On success the sessions are sorted by
`b.createdAt - a.createdAt` (descending, newest first). -/
def loadSessionsFromDB_v2 (dbResult : Except String Store) : List ChatSession :=
  match dbResult with
  | Except.error _ => []
  | Except.ok store => (getAllSessions store).insertionSort descLe

/-- A map by a function that fixes every member of the list is the
identity. -/
theorem map_id_of_mem {α : Type} (l : List α) (f : α → α) (h : ∀ x ∈ l, f x = x) :
    l.map f = l := by
  induction l with
  | nil => rfl
  | cons a t ih =>
    simp only [List.map_cons, h a (by simp)]
    rw [ih (fun x hx => h x (by simp [hx]))]

/-- `put` of a record whose key is not yet in the store appends it. -/
theorem storePut_of_fresh (store : Store) (s : ChatSession)
    (h : store.any (fun p => p.1 == s.id) = false) :
    storePut store s = store ++ [(s.id, s)] := by
  simp [storePut, h]

/-- Folding `put` over sessions with pairwise distinct ids, all fresh for
the accumulator, appends one record per session. -/
theorem foldl_storePut_fresh (ss : List ChatSession) :
    ∀ acc : Store, (ss.map ChatSession.id).Nodup →
    (∀ s ∈ ss, acc.any (fun p => p.1 == s.id) = false) →
    ss.foldl storePut acc = acc ++ ss.map (fun t => (t.id, t)) := by
  induction ss with
  | nil => intro acc _ _; simp
  | cons s rest ih =>
    intro acc hnd hfresh
    have h1 : acc.any (fun p => p.1 == s.id) = false := hfresh s (by simp)
    have hput : storePut acc s = acc ++ [(s.id, s)] := storePut_of_fresh acc s h1
    have hnd1 : s.id ∉ rest.map ChatSession.id := (List.nodup_cons.mp (by simpa using hnd)).1
    have hnd2 : (rest.map ChatSession.id).Nodup := (List.nodup_cons.mp (by simpa using hnd)).2
    have hfresh2 : ∀ t ∈ rest, (acc ++ [(s.id, s)]).any (fun p => p.1 == t.id) = false := by
      intro t ht
      rw [List.any_append]
      have h2 : acc.any (fun p => p.1 == t.id) = false := hfresh t (by simp [ht])
      have h3 : s.id ≠ t.id := by
        intro he
        exact hnd1 (he ▸ List.mem_map_of_mem ChatSession.id ht)
      simp [h2, h3]
    rw [List.foldl_cons, hput, ih (acc ++ [(s.id, s)]) hnd2 hfresh2]
    simp

/-- Folding `put` over sessions whose records are already stored exactly
as they are leaves the store unchanged: each put replaces a record by an
equal one. -/
theorem foldl_storePut_already (ss : List ChatSession) :
    ∀ store : Store,
    (∀ s ∈ ss, store.any (fun p => p.1 == s.id) = true) →
    (∀ s ∈ ss, ∀ p ∈ store, p.1 = s.id → p = (s.id, s)) →
    ss.foldl storePut store = store := by
  induction ss with
  | nil => intro store _ _; rfl
  | cons s rest ih =>
    intro store hany hcontent
    have h1 : store.any (fun p => p.1 == s.id) = true := hany s (by simp)
    have hstep : storePut store s = store := by
      have hmap : store.map (fun p => if p.1 = s.id then (s.id, s) else p) = store := by
        apply map_id_of_mem
        intro p hp
        by_cases hc : p.1 = s.id
        · have hps := hcontent s (by simp) p hp hc
          rw [hps]
          simp
        · simp [hc]
      simp [storePut, h1, hmap]
    rw [List.foldl_cons, hstep]
    exact ih store (fun t ht => hany t (by simp [ht])) (fun t ht => hcontent t (by simp [ht]))

/-- Looking up a session's id in the per-record image of a duplicate-free
session list finds exactly that session. -/
theorem lookup_map_pair (ss : List ChatSession) :
    ∀ s ∈ ss, (ss.map ChatSession.id).Nodup →
    lookupStore (ss.map (fun t => (t.id, t))) s.id = some s := by
  induction ss with
  | nil => intro s hs _; cases hs
  | cons t rest ih =>
    intro s hs hnd
    rcases List.mem_cons.mp hs with he | hm
    · subst he
      simp [lookupStore]
    · have ht : t.id ≠ s.id := by
        intro he
        have h1 : t.id ∉ rest.map ChatSession.id := (List.nodup_cons.mp (by simpa using hnd)).1
        exact h1 (he ▸ List.mem_map_of_mem ChatSession.id hm)
      have hnd2 : (rest.map ChatSession.id).Nodup := (List.nodup_cons.mp (by simpa using hnd)).2
      have := ih s hm hnd2
      simpa [lookupStore, ht] using this

/-- When the legacy blob under `'all_sessions'` is an array, the migration
is a fold of keyed puts over it. -/
theorem runMigration_blob (ss : List ChatSession) (current : Store) :
    runMigration [("all_sessions", LegacyVal.arr ss)] current = ss.foldl storePut current := rfl

/-- Claim C2: the legacy-to-current migration is idempotent. For a legacy
blob that is an array of sessions with pairwise distinct ids stored under
the fixed key `'all_sessions'`, running the migration body a second time
over the same legacy data leaves the per-record layout unchanged, the
layout holds exactly one record per session id, and each record is
content-equal to the legacy session, because each put is keyed by the
session's id. -/
theorem migration_idempotent (ss : List ChatSession)
    (hnd : (ss.map ChatSession.id).Nodup) :
    runMigration [("all_sessions", LegacyVal.arr ss)]
        (runMigration [("all_sessions", LegacyVal.arr ss)] [])
      = runMigration [("all_sessions", LegacyVal.arr ss)] [] ∧
    ((runMigration [("all_sessions", LegacyVal.arr ss)] []).map Prod.fst).Nodup ∧
    (∀ s ∈ ss, lookupStore (runMigration [("all_sessions", LegacyVal.arr ss)] []) s.id = some s) := by
  have honce : runMigration [("all_sessions", LegacyVal.arr ss)] [] = ss.map (fun t => (t.id, t)) := by
    rw [runMigration_blob]
    have := foldl_storePut_fresh ss [] hnd (fun s _ => rfl)
    simpa using this
  refine ⟨?_, ?_, ?_⟩
  · rw [runMigration_blob, honce]
    apply foldl_storePut_already
    · intro s hs
      rw [List.any_eq_true]
      exact ⟨(s.id, s), List.mem_map_of_mem _ hs, by simp⟩
    · intro s hs p hp hpid
      rcases List.mem_map.mp hp with ⟨t, ht, hteq⟩
      have htid : t.id = s.id := by rw [← hteq] at hpid; exact hpid
      have hts : t = s := List.inj_on_of_nodup_map hnd ht hs htid
      rw [← hteq, hts]
  · rw [honce]
    have hmm : (ss.map (fun t => (t.id, t))).map Prod.fst = ss.map ChatSession.id := by
      rw [List.map_map]; rfl
    rw [hmm]
    exact hnd
  · intro s hs
    rw [honce]
    exact lookup_map_pair ss s hs hnd

/-- Session records used to instantiate theorems with hypotheses on
concrete inputs. -/
def sessionA : ChatSession :=
  { id := "a", title := "first", messages := [], createdAt := 1, updatedAt := none }

/-- A second concrete session record with a later creation time. -/
def sessionB : ChatSession :=
  { id := "b", title := "second", messages := [], createdAt := 2, updatedAt := none }

/-- Witness for C2: the idempotence theorem applied to a concrete
two-session legacy blob with distinct ids. -/
theorem migration_idempotent_check :
    (([sessionA, sessionB].map ChatSession.id).Nodup) ∧
    (runMigration [("all_sessions", LegacyVal.arr [sessionA, sessionB])]
        (runMigration [("all_sessions", LegacyVal.arr [sessionA, sessionB])] [])
      = runMigration [("all_sessions", LegacyVal.arr [sessionA, sessionB])] [] ∧
     ((runMigration [("all_sessions", LegacyVal.arr [sessionA, sessionB])] []).map Prod.fst).Nodup ∧
     (∀ s ∈ [sessionA, sessionB],
        lookupStore (runMigration [("all_sessions", LegacyVal.arr [sessionA, sessionB])] []) s.id
          = some s)) :=
  ⟨by decide, migration_idempotent [sessionA, sessionB] (by decide)⟩

/-- Claim C9: the migration reads but never writes or deletes the legacy
store. After the upgrade callback runs, the contents of the legacy store,
in particular the record under the fixed key `'all_sessions'`, are
unchanged, and no object store present before (the legacy `sessions`
store included) has been removed. -/
theorem migration_leaves_legacy_untouched (db : IDB) :
    (upgradeDB db).legacy = db.legacy ∧
    (upgradeDB db).legacy.find? (fun p => p.1 == "all_sessions")
      = db.legacy.find? (fun p => p.1 == "all_sessions") ∧
    db.storeNames ⊆ (upgradeDB db).storeNames := by
  unfold upgradeDB
  split_ifs <;>
    first
      | exact ⟨rfl, rfl, fun _ hx => hx⟩
      | exact ⟨rfl, rfl, List.subset_append_left _ _⟩

/-- Counterexample to claim C3 as stated: the `loadSessionsFromDB` variant
at `storage.ts` lines 123-133 sorts by `b.createdAt - a.createdAt`, so on
a store holding sessions created at times 1 and 2 it returns the newer
session first — the result is not ascending by `createdAt`. -/
theorem loadSessions_not_ascending :
    loadSessionsFromDB_v2 (Except.ok [("a", sessionA), ("b", sessionB)]) = [sessionB, sessionA] ∧
    ¬ List.Pairwise ascLe (loadSessionsFromDB_v2 (Except.ok [("a", sessionA), ("b", sessionB)])) := by
  constructor
  · decide
  · decide

/-- Claim C3 (amended): both `loadSessionsFromDB` variants return a
permutation of every stored session record; the variant at lines 50-55
sorts by `createdAt` ascending (oldest first) while the variant at lines
123-133 sorts by `createdAt` descending (newest first). -/
theorem loadSessions_sorted (store : Store) :
    loadSessionsFromDB_v1 (Except.ok store)
      = Except.ok ((getAllSessions store).insertionSort ascLe) ∧
    List.Sorted ascLe ((getAllSessions store).insertionSort ascLe) ∧
    ((getAllSessions store).insertionSort ascLe).Perm (getAllSessions store) ∧
    List.Sorted descLe (loadSessionsFromDB_v2 (Except.ok store)) ∧
    (loadSessionsFromDB_v2 (Except.ok store)).Perm (getAllSessions store) :=
  ⟨rfl, List.sorted_insertionSort ascLe _, List.perm_insertionSort ascLe _,
   List.sorted_insertionSort descLe _, List.perm_insertionSort descLe _⟩

/-- Counterexample to claim C7 as stated: the `loadSessionsFromDB` variant
at `storage.ts` lines 50-55 has no try/catch, so a store failure
propagates as a rejection instead of producing the empty list. -/
theorem loadSessions_propagates_failure :
    loadSessionsFromDB_v1 (Except.error "IndexedDB open failed")
      = Except.error "IndexedDB open failed" ∧
    loadSessionsFromDB_v1 (Except.error "IndexedDB open failed")
      ≠ Except.ok [] := by
  refine ⟨rfl, ?_⟩
  simp [loadSessionsFromDB_v1]

/-- Claim C7 (amended): the `loadSessionsFromDB` variant at lines 123-133
returns the empty sequence on every store failure instead of propagating,
while the variant at lines 50-55 propagates the failure to its caller. -/
theorem loadSessions_failure_handling (e : String) (store : Store) :
    loadSessionsFromDB_v2 (Except.error e) = [] ∧
    loadSessionsFromDB_v1 (Except.error e) = Except.error e ∧
    loadSessionsFromDB_v2 (Except.ok store) = (getAllSessions store).insertionSort descLe :=
  ⟨rfl, rfl, rfl⟩

/-- JS truthiness of a string with a default, `text || dflt`: the empty
string is falsy. (`undefined` is modelled by the empty string as well; both
select the default.) -/
def jsOr (s dflt : String) : String := if s = "" then dflt else s

/-- JS truthiness of a number with a default, `n || dflt`: zero is falsy.
(`undefined` is modelled by zero; both select the default.) -/
def jsOrNat (n dflt : Nat) : Nat := if n = 0 then dflt else n

/-- JS `s.slice(0, n)`: the first `n` characters of the string. -/
def jsSlice (s : String) (n : Nat) : String := ⟨s.data.take n⟩

/-- Title derivation for a freshly created session (`part_000` lines
116-119, identical in `App.tsx` lines 119-122):
`titleText = text || (attachments.length > 0 ? 'Image Analysis' : 'New Chat')`
then `titleText.slice(0, 30) + (titleText.length > 30 ? '...' : '')`. -/
def deriveTitle (text : String) (attachments : List Attachment) : String :=
  let titleText := jsOr text (if attachments.length > 0 then "Image Analysis" else "New Chat")
  jsSlice titleText 30 ++ (if 30 < titleText.length then "..." else "")

/-- The length of a JS slice is bounded by the requested count. -/
theorem length_jsSlice (s : String) (n : Nat) : (jsSlice s n).length = min n s.length := by
  show (s.data.take n).length = min n s.data.length
  exact List.length_take n s.data

/-- String concatenation adds lengths. -/
theorem length_append_str (s t : String) : (s ++ t).length = s.length + t.length :=
  String.length_append s t

/-- Appending the empty string is the identity. -/
theorem append_empty_str (s : String) : s ++ "" = s :=
  String.append_empty s

/-- Counterexample to claim C8 as stated: the derived title is not always
at most 30 characters long — for a 31-character input the code keeps the
first 30 characters and appends a three-character `'...'`, giving a title
of 33 characters; and for short inputs no ellipsis is appended at all. -/
theorem title_length_exceeds_30 :
    deriveTitle "Hi" [] = "Hi" ∧
    (deriveTitle "aaaaaaaaaaaaaaaaaaaaaaaaaaaaaaa" []).length = 33 ∧
    ¬ (deriveTitle "aaaaaaaaaaaaaaaaaaaaaaaaaaaaaaa" []).length ≤ 30 :=
  ⟨by decide, by decide, by decide⟩

/-- Claim C8 (amended): the title of a session created on first send is
the user's input unchanged when it has at most 30 characters, and
otherwise its 30-character prefix with an ellipsis appended — so the
title has at most 33 (not 30) characters; when the input text is empty
the title is the fixed placeholder `'Image Analysis'` if attachments are
present and `'New Chat'` otherwise. -/
theorem title_truncated (text : String) (attachments : List Attachment) :
    (deriveTitle text attachments).length ≤ 33 ∧
    deriveTitle text attachments
      = (if text = "" then (if attachments.isEmpty then "New Chat" else "Image Analysis")
         else if text.length ≤ 30 then text
         else jsSlice text 30 ++ "...") := by
  have h3 : ("..." : String).length = 3 := rfl
  have hz : ("" : String).length = 0 := rfl
  constructor
  · simp only [deriveTitle]
    by_cases h : 30 < (jsOr text (if attachments.length > 0 then "Image Analysis" else "New Chat")).length
    · rw [if_pos h, length_append_str, length_jsSlice, h3]
      have := Nat.min_le_left 30
        (jsOr text (if attachments.length > 0 then "Image Analysis" else "New Chat")).length
      omega
    · rw [if_neg h, length_append_str, length_jsSlice, hz]
      have := Nat.min_le_left 30
        (jsOr text (if attachments.length > 0 then "Image Analysis" else "New Chat")).length
      omega
  · by_cases h0 : text = ""
    · subst h0
      rw [if_pos rfl]
      cases attachments with
      | nil => decide
      | cons a l =>
        have h2 : 0 < (a :: l).length := Nat.succ_pos _
        have h1 : deriveTitle "" (a :: l) = "Image Analysis" := by
          simp only [deriveTitle, jsOr]
          simp only [List.length_cons]
          rw [if_pos (show (0 : Nat) < l.length + 1 from Nat.succ_pos _)]
          decide
        rw [h1]
        rfl
    · have htx : jsOr text (if attachments.length > 0 then "Image Analysis" else "New Chat")
          = text := by
        simp [jsOr, h0]
      rw [if_neg h0]
      by_cases h1 : text.length ≤ 30
      · rw [if_pos h1]
        simp only [deriveTitle]
        rw [htx, if_neg (by omega)]
        have hsl : jsSlice text 30 = text := by
          unfold jsSlice
          have htk : text.data.take 30 = text.data := List.take_of_length_le h1
          rw [htk]
        rw [hsl]
        exact append_empty_str text
      · rw [if_neg h1]
        simp only [deriveTitle]
        rw [htx, if_pos (by omega)]

/-- Model-call configuration from `types.ts` (`GeminiConfig`): the
thinking budget is a JS number supplied by the caller, possibly negative. -/
structure GeminiConfig where
  thinkingBudget : Int
deriving DecidableEq

/-- The `thinkingBudget` value placed in `thinkingConfig` by
`generateContentStream` (`part_001` lines 86-88):
`config.thinkingBudget > 0 ? config.thinkingBudget : 0`. -/
def forwardedThinkingBudget (config : GeminiConfig) : Int :=
  if config.thinkingBudget > 0 then config.thinkingBudget else 0

/-- Claim C10: the thinking budget forwarded to the model equals
`config.thinkingBudget` when it is strictly positive and `0` otherwise, so
the forwarded value is never negative even when the caller passes a
negative budget. -/
theorem thinkingBudget_clamped (config : GeminiConfig) :
    0 ≤ forwardedThinkingBudget config ∧
    (0 < config.thinkingBudget → forwardedThinkingBudget config = config.thinkingBudget) ∧
    (config.thinkingBudget ≤ 0 → forwardedThinkingBudget config = 0) := by
  unfold forwardedThinkingBudget
  by_cases h : config.thinkingBudget > 0
  · rw [if_pos h]
    exact ⟨le_of_lt h, fun _ => rfl, fun h2 => absurd h (not_lt.mpr h2)⟩
  · rw [if_neg h]
    exact ⟨le_refl 0, fun h1 => absurd h1 h, fun _ => rfl⟩

/-- Witness for C10: the clamp evaluated at a positive and at a negative
concrete budget. -/
theorem thinkingBudget_clamped_check :
    (0 < ({ thinkingBudget := 128 } : GeminiConfig).thinkingBudget ∧
      forwardedThinkingBudget { thinkingBudget := 128 } = 128) ∧
    (({ thinkingBudget := -5 } : GeminiConfig).thinkingBudget ≤ 0 ∧
      forwardedThinkingBudget { thinkingBudget := -5 } = 0) ∧
    0 ≤ forwardedThinkingBudget { thinkingBudget := -5 } :=
  ⟨⟨by decide, (thinkingBudget_clamped ⟨128⟩).2.1 (by decide)⟩,
   ⟨by decide, (thinkingBudget_clamped ⟨-5⟩).2.2 (by decide)⟩,
   (thinkingBudget_clamped ⟨-5⟩).1⟩

/-- The `prevSessions.map(session => session.id === activeSessionId ? ...
: session)` update pattern used throughout `handleSendMessage`: apply `f`
to the sessions whose id matches, leave every other session unchanged. -/
def updateSessionAt (activeId : String) (f : ChatSession → ChatSession)
    (l : List ChatSession) : List ChatSession :=
  l.map (fun s => if s.id == activeId then f s else s)

/-- The model message created on the first stream chunk (`part_000` lines
180-185): fresh ai id, role `'model'`, text so far, no attachments, not an
error. -/
def mkAiMessage (aiId : String) (text : String) (now : Nat) : Message :=
  { id := aiId, role := Role.model, text := text, attachments := [],
    timestamp := now, isError := false }

/-- State of the `for await (const chunk of stream)` loop: the sessions
list, the `accumulatedText` variable and the `isFirstChunk` flag. -/
structure LoopState where
  sessions : List ChatSession
  accumulatedText : String
  firstChunk : Bool
deriving DecidableEq

/-- The `m.id === aiMessageId ? { ...m, text: accumulatedText } : m`
per-message update applied on every chunk after the first. -/
def updateAiText (aiId : String) (accumulatedText : String) (m : Message) : Message :=
  if m.id == aiId then { m with text := accumulatedText } else m

/-- Body of the streaming loop (`part_000` lines 175-204, identical in
`App.tsx` lines 162-193): extend `accumulatedText` by the chunk; on the
first chunk append a fresh model message holding the accumulated text to
the active session; on every later chunk replace the text of the message
with the ai message id by the accumulated text. -/
def applyChunk (activeId aiId : String) (updatedHistoryForUI : List Message) (now : Nat)
    (st : LoopState) (chunk : String) : LoopState :=
  let accumulatedText := st.accumulatedText ++ chunk
  if st.firstChunk then
    { sessions := updateSessionAt activeId
        (fun s => { s with messages :=
            updatedHistoryForUI ++ [mkAiMessage aiId accumulatedText now] })
        st.sessions,
      accumulatedText := accumulatedText, firstChunk := false }
  else
    { sessions := updateSessionAt activeId
        (fun s => { s with messages := s.messages.map (updateAiText aiId accumulatedText) })
        st.sessions,
      accumulatedText := accumulatedText, firstChunk := false }

/-- The whole streaming loop, started with empty accumulated text and the
first-chunk flag set, run over the fragments yielded by the stream. -/
def runStreamLoop (activeId aiId : String) (updatedHistoryForUI : List Message) (now : Nat)
    (sessions0 : List ChatSession) (chunks : List String) : LoopState :=
  chunks.foldl (applyChunk activeId aiId updatedHistoryForUI now)
    { sessions := sessions0, accumulatedText := "", firstChunk := true }

/-- Concatenation of a fragment sequence in arrival order. -/
def concatChunks (chunks : List String) : String := chunks.foldl (· ++ ·) ""

/-- Updating the sessions list at an id preserves `find?` by that id: the
first matching session is found updated, provided the update function does
not change the session's id. -/
theorem updateSessionAt_find (i : String) (f : ChatSession → ChatSession)
    (hid : ∀ s, (f s).id = s.id) (l : List ChatSession) (s0 : ChatSession)
    (h : l.find? (fun s => s.id == i) = some s0) :
    (updateSessionAt i f l).find? (fun s => s.id == i) = some (f s0) := by
  unfold updateSessionAt
  rw [List.find?_map]
  have hp : ((fun s => s.id == i) ∘ (fun s => if s.id == i then f s else s))
      = (fun s => s.id == i) := by
    funext s
    by_cases hc : (s.id == i) = true
    · simp [Function.comp, hc, hid]
    · simp [Function.comp, hc]
  rw [hp, h]
  have hs0 := List.find?_some h
  show some (if s0.id == i then f s0 else s0) = some (f s0)
  rw [if_pos hs0]

/-- Updating the sessions list at an id preserves the list of session
ids, provided the update function does not change ids. -/
theorem updateSessionAt_ids (i : String) (f : ChatSession → ChatSession)
    (hid : ∀ s, (f s).id = s.id) :
    ∀ l : List ChatSession, (updateSessionAt i f l).map ChatSession.id = l.map ChatSession.id := by
  intro l
  induction l with
  | nil => rfl
  | cons a t ih =>
    show ((if a.id == i then f a else a) :: updateSessionAt i f t).map ChatSession.id = _
    rw [List.map_cons, List.map_cons, ih]
    by_cases hc : (a.id == i) = true
    · rw [if_pos hc, hid]
    · rw [if_neg hc]

/-- Invariant of the streaming loop after the first chunk: if the active
session's message list is the pre-stream history plus the single model
message holding the accumulated text, then running the rest of the chunks
extends exactly that message by their concatenation, in order. -/
theorem streamLoop_inv (activeId aiId : String) (hist : List Message) (now : Nat)
    (hfresh : ∀ m ∈ hist, m.id ≠ aiId) :
    ∀ (cs : List String) (S : List ChatSession) (a : String) (s1 : ChatSession),
    S.find? (fun s => s.id == activeId) = some s1 →
    s1.messages = hist ++ [mkAiMessage aiId a now] →
    ((cs.foldl (applyChunk activeId aiId hist now)
        { sessions := S, accumulatedText := a, firstChunk := false }).sessions.find?
        (fun s => s.id == activeId)).map ChatSession.messages
      = some (hist ++ [mkAiMessage aiId (cs.foldl (· ++ ·) a) now]) := by
  intro cs
  induction cs with
  | nil =>
    intro S a s1 hf hm
    simp [List.foldl_nil, hf, hm]
  | cons c rest ih =>
    intro S a s1 hf hm
    simp only [List.foldl_cons]
    have hstep : applyChunk activeId aiId hist now ⟨S, a, false⟩ c
        = { sessions := updateSessionAt activeId
              (fun s => { s with messages := s.messages.map (updateAiText aiId (a ++ c)) }) S,
            accumulatedText := a ++ c, firstChunk := false } := by
      simp [applyChunk]
    rw [hstep]
    have hid : ∀ s : ChatSession,
        ((fun t : ChatSession => { t with messages := t.messages.map (updateAiText aiId (a ++ c)) }) s).id
          = s.id :=
      fun _ => rfl
    have hf2 := updateSessionAt_find activeId _ hid S s1 hf
    have hmsg : s1.messages.map (updateAiText aiId (a ++ c))
        = hist ++ [mkAiMessage aiId (a ++ c) now] := by
      rw [hm, List.map_append]
      have hh : hist.map (updateAiText aiId (a ++ c)) = hist := by
        apply map_id_of_mem
        intro m hmem
        simp [updateAiText, hfresh m hmem]
      rw [hh]
      simp [updateAiText, mkAiMessage]
    exact ih _ (a ++ c) _ hf2 hmsg

/-- Claim C1: monotonic streaming. For every fragment sequence yielded by
the completion stream, after the i-th fragment is applied (1 ≤ i ≤ n) the
active session's in-memory message list is exactly the pre-stream history
followed by the single model message created on the first fragment, whose
text is the concatenation of the first i fragments in arrival order —
fragments are never reordered, skipped, or truncated, and no other message
changes. -/
theorem streaming_monotonic (activeId aiId : String) (hist : List Message) (now : Nat)
    (sessions0 : List ChatSession) (s0 : ChatSession) (fs : List String) (i : Nat)
    (hfind : sessions0.find? (fun s => s.id == activeId) = some s0)
    (hfresh : ∀ m ∈ hist, m.id ≠ aiId)
    (h1 : 1 ≤ i) (h2 : i ≤ fs.length) :
    ((runStreamLoop activeId aiId hist now sessions0 (fs.take i)).sessions.find?
        (fun s => s.id == activeId)).map ChatSession.messages
      = some (hist ++ [mkAiMessage aiId (concatChunks (fs.take i)) now]) := by
  have hlen : (fs.take i).length = min i fs.length := List.length_take i fs
  have hne : fs.take i ≠ [] := by
    intro h
    rw [h] at hlen
    simp at hlen
    omega
  obtain ⟨c, rest, hcr⟩ := List.exists_cons_of_ne_nil hne
  rw [hcr]
  unfold runStreamLoop concatChunks
  simp only [List.foldl_cons]
  have hstep : applyChunk activeId aiId hist now ⟨sessions0, "", true⟩ c
      = { sessions := updateSessionAt activeId
            (fun s => { s with messages := hist ++ [mkAiMessage aiId ("" ++ c) now] }) sessions0,
          accumulatedText := "" ++ c, firstChunk := false } := by
    simp [applyChunk]
  rw [hstep]
  have hid : ∀ s : ChatSession,
      ((fun t : ChatSession => { t with messages := hist ++ [mkAiMessage aiId ("" ++ c) now] }) s).id = s.id :=
    fun _ => rfl
  have hf2 := updateSessionAt_find activeId _ hid sessions0 s0 hfind
  exact streamLoop_inv activeId aiId hist now hfresh rest _ ("" ++ c) _ hf2 rfl

/-- Witness for C1: two fragments streamed into a single-session state;
after both are applied the model message text is their concatenation. -/
theorem streaming_monotonic_check :
    ([({ id := "s", title := "T", messages := [], createdAt := 0, updatedAt := none } : ChatSession)].find?
        (fun s => s.id == "s")
      = some ({ id := "s", title := "T", messages := [], createdAt := 0, updatedAt := none } : ChatSession)) ∧
    (∀ m ∈ ([] : List Message), m.id ≠ "ai") ∧
    1 ≤ 2 ∧ 2 ≤ (["Hi", " there"] : List String).length ∧
    ((runStreamLoop "s" "ai" [] 7
        [({ id := "s", title := "T", messages := [], createdAt := 0, updatedAt := none } : ChatSession)]
        ((["Hi", " there"] : List String).take 2)).sessions.find?
        (fun s => s.id == "s")).map ChatSession.messages
      = some ([] ++ [mkAiMessage "ai" (concatChunks ((["Hi", " there"] : List String).take 2)) 7]) :=
  ⟨by decide, by decide, by decide, by decide,
   streaming_monotonic "s" "ai" [] 7
     [({ id := "s", title := "T", messages := [], createdAt := 0, updatedAt := none } : ChatSession)]
     ({ id := "s", title := "T", messages := [], createdAt := 0, updatedAt := none } : ChatSession)
     ["Hi", " there"] 2 (by decide) (by decide) (by decide) (by decide)⟩

/-- JS `String.prototype.includes`: the pattern occurs in the string iff
splitting on it yields more than one piece. -/
def jsIncludes (s sub : String) : Bool := (s.splitOn sub).length != 1

/-- The `isTextBased` mime classification of `generateContentStream`
(`part_001` lines 40-48): csv, any `text/*`, json, xml, and anything
containing `javascript`, `typescript` or `script`. -/
def isTextBased (mimeType : String) : Bool :=
  mimeType == "text/csv" ||
  mimeType.startsWith "text/" ||
  mimeType == "application/json" ||
  mimeType == "application/xml" ||
  jsIncludes mimeType "javascript" ||
  jsIncludes mimeType "typescript" ||
  jsIncludes mimeType "script"

/-- One part of a Gemini `Content` turn. A text-like attachment is decoded
and inlined as annotated text; the decoding itself
(`decodeURIComponent(escape(atob(data)))`) is an external runtime facility
and is modelled by the `decodedText` constructor carrying the attachment
name and raw data that the code feeds to it. -/
inductive GPart where
  | textPart (text : String)
  | decodedText (name : String) (data : String)
  | inlineData (mimeType : String) (data : String)
deriving DecidableEq

/-- A Gemini `Content` turn: a role string and its parts. -/
structure Content where
  role : String
  parts : List GPart
deriving DecidableEq

/-- Translation of one attachment into a part (`part_001` lines 56-72):
text-like attachments are decoded and inlined, everything else is passed
as an opaque typed blob. -/
def attachmentToPart (att : Attachment) : GPart :=
  if isTextBased att.mimeType then GPart.decodedText att.name att.data
  else GPart.inlineData att.mimeType att.data

/-- Translation of one history message into a Gemini `Content` turn
(`part_001` lines 53-78): the message text first, then one part per
attachment in order; role `'user'` maps to `'user'`, anything else to
`'model'`. -/
def msgToContent (msg : Message) : Content :=
  { role := if msg.role == Role.user then "user" else "model",
    parts := GPart.textPart msg.text :: msg.attachments.map attachmentToPart }

/-- The `formattedHistory` computed by `generateContentStream` (`part_001`
lines 51-78): drop every error-flagged message, then translate the rest
turn by turn, preserving order. -/
def formatHistory (history : List Message) : List Content :=
  (history.filter (fun m => !m.isError)).map msgToContent

/-- Effects issued by one send-message call, in issue order: a keyed
`saveSessionToDB` put, a `deleteSessionFromDB`, or the start of stream
consumption with the arguments passed to `generateContentStream`. -/
inductive Ev where
  | dbPut (s : ChatSession)
  | dbDelete (id : String)
  | streamStart (prompt : String) (attachments : List Attachment)
      (history : List Message) (thinkingBudget : Int)
deriving DecidableEq

/-- The record carried by a put event, if any. -/
def dbPutRecord : Ev → Option ChatSession
  | Ev.dbPut s => some s
  | _ => none

/-- The arguments of a stream-start event, if any. -/
def streamStartArgs : Ev → Option (String × List Attachment × List Message × Int)
  | Ev.streamStart p a h b => some (p, a, h, b)
  | _ => none

/-- Apply one storage effect to a store; stream events do not touch it. -/
def applyEv (db : Store) : Ev → Store
  | Ev.dbPut s => storePut db s
  | Ev.dbDelete i => db.filter (fun p => !(p.1 == i))
  | _ => db

/-- Apply a whole effect trace to a store, in order. -/
def applyTrace (db : Store) (trace : List Ev) : Store := trace.foldl applyEv db

/-- One run of the completion stream: the fragments it yields, in arrival
order, and the message of the error it raises after them, if any. -/
structure StreamOutcome where
  chunks : List String
  error : Option String
deriving DecidableEq

/-- The component state owned by the session controller: the in-memory
session collection, the active session id (null in "New Chat" mode), the
loading flag and the thinking budget. -/
structure AppState where
  sessions : List ChatSession
  currentSessionId : Option String
  isLoading : Bool
  thinkingBudget : Int
deriving DecidableEq

/-- Result of one send-message call: the final in-memory state and the
trace of storage/stream effects in issue order. -/
structure SendResult where
  state : AppState
  trace : List Ev
deriving DecidableEq

/-- The derived `messages` value (`part_000` lines 22-23): the message
list of the session the active id points at, or the empty list when there
is no active session or the id is stale. -/
def currentMessages (st : AppState) : List Message :=
  match st.currentSessionId with
  | none => []
  | some i =>
    match st.sessions.find? (fun s => s.id == i) with
    | some s => s.messages
    | none => []

/-- The user message constructed in step 2 of the send protocol
(`part_000` lines 138-144, identical in `App.tsx` lines 134-140). -/
def userMessageRecord (text : String) (attachments : List Attachment) (now : Nat) : Message :=
  { id := toString now, role := Role.user, text := text,
    attachments := attachments, timestamp := now, isError := false }

/-- The substituted error message (`part_000` lines 229-235, identical in
`App.tsx` lines 196-202): `error.message || 'Sorry, something went
wrong.'`, flagged `isError`. -/
def errorMessageRecord (e : String) (now : Nat) : Message :=
  { id := toString (now + 2), role := Role.model,
    text := jsOr e "Sorry, something went wrong.",
    attachments := [], timestamp := now, isError := true }

/-- The step-2 in-memory update of the active session (`part_000` lines
149-153): replace its messages by the appended history and refresh
`updatedAt`. -/
def appendUserUpd (updatedHistoryForUI : List Message) (now : Nat) (s : ChatSession) :
    ChatSession :=
  { s with messages := updatedHistoryForUI, updatedAt := some now }

/-- The `{ ...session, messages: ms }` in-memory update used by the error
branch of both variants and by the user append of the `App.tsx` variant. -/
def setMessagesUpd (ms : List Message) (s : ChatSession) : ChatSession :=
  { s with messages := ms }

/-- The fresh session synthesized on a send with no active session
(`part_000` lines 117-123): id and createdAt taken from the clock, derived
title, empty message list, `updatedAt` set. -/
def newSessionRecord (text : String) (attachments : List Attachment) (now : Nat) : ChatSession :=
  { id := toString now, title := deriveTitle text attachments,
    messages := [], createdAt := now, updatedAt := some now }

/-- The send-message protocol of the `part_000` variant (lines 109-256).
Step 1: with no active session, synthesize a new session, put it first in
the in-memory collection, make it active and save it immediately. Step 2:
append the user message in memory and save the updated session. Step 3:
start the stream, passing the history as it stood before the append.
Loop: apply each fragment. Then either save the final frozen session
(success) or substitute an error message in memory and save that state
(failure). The loading flag ends false on every path. -/
def handleSendMessage (st : AppState) (text : String) (attachments : List Attachment)
    (now : Nat) (outcome : StreamOutcome) : SendResult :=
  let newSession : ChatSession := newSessionRecord text attachments now
  let activeSessionId :=
    match st.currentSessionId with
    | none => newSession.id
    | some i => i
  let currentHistory :=
    match st.currentSessionId with
    | none => []
    | some _ => currentMessages st
  let workingSession : Option ChatSession :=
    match st.currentSessionId with
    | none => some newSession
    | some i => st.sessions.find? (fun s => s.id == i)
  let sessions1 :=
    match st.currentSessionId with
    | none => newSession :: st.sessions
    | some _ => st.sessions
  let trace1 : List Ev :=
    match st.currentSessionId with
    | none => [Ev.dbPut newSession]
    | some _ => []
  let userMessage : Message := userMessageRecord text attachments now
  let updatedHistoryForUI := currentHistory ++ [userMessage]
  let sessions2 := updateSessionAt activeSessionId
      (appendUserUpd updatedHistoryForUI now) sessions1
  let trace2 := trace1 ++
    (match workingSession with
     | some ws =>
         [Ev.dbPut
           { ws with
             id := activeSessionId
             messages := updatedHistoryForUI
             updatedAt := some now }]
     | none => [])
  let trace3 := trace2 ++ [Ev.streamStart text attachments currentHistory st.thinkingBudget]
  let aiMessageId := toString (now + 1)
  let loopEnd := runStreamLoop activeSessionId aiMessageId updatedHistoryForUI now
      sessions2 outcome.chunks
  match outcome.error with
  | none =>
    let finalAiMessage : Message :=
      { id := aiMessageId, role := Role.model, text := loopEnd.accumulatedText,
        attachments := [], timestamp := now, isError := false }
    let currentSessionData : Option ChatSession :=
      match st.sessions.find? (fun s => s.id == activeSessionId) with
      | some s => some s
      | none => workingSession
    let finalSessionState : ChatSession :=
      { id := activeSessionId,
        title := jsOr (match currentSessionData with | some s => s.title | none => "") "Chat",
        createdAt := jsOrNat (match currentSessionData with | some s => s.createdAt | none => 0) now,
        messages := updatedHistoryForUI ++ [finalAiMessage],
        updatedAt := some now }
    { state := { sessions := loopEnd.sessions, currentSessionId := some activeSessionId,
                 isLoading := false, thinkingBudget := st.thinkingBudget },
      trace := trace3 ++ [Ev.dbPut finalSessionState] }
  | some e =>
    let errorMessage : Message := errorMessageRecord e now
    let sessions4 := updateSessionAt activeSessionId
        (setMessagesUpd (updatedHistoryForUI ++ [errorMessage])) loopEnd.sessions
    let latestSession : Option ChatSession :=
      match st.sessions.find? (fun s => s.id == activeSessionId) with
      | some s => some s
      | none => workingSession
    { state := { sessions := sessions4, currentSessionId := some activeSessionId,
                 isLoading := false, thinkingBudget := st.thinkingBudget },
      trace := trace3 ++
        (match latestSession with
         | some ls =>
             [Ev.dbPut
               { ls with
                 messages := updatedHistoryForUI ++ [errorMessage]
                 updatedAt := some now }]
         | none => []) }

/-- The older send-message variant of `App.tsx` (lines 112-211). Its
in-memory protocol is the same, but it never calls the storage layer
inside the call: persistence is deferred to a debounced effect outside the
function, so the trace holds no put at all. -/
def handleSendMessageApp (st : AppState) (text : String) (attachments : List Attachment)
    (now : Nat) (outcome : StreamOutcome) : SendResult :=
  let newSession : ChatSession :=
    { id := toString now, title := deriveTitle text attachments,
      messages := [], createdAt := now, updatedAt := none }
  let activeSessionId :=
    match st.currentSessionId with
    | none => newSession.id
    | some i => i
  let currentHistory :=
    match st.currentSessionId with
    | none => []
    | some _ => currentMessages st
  let sessions1 :=
    match st.currentSessionId with
    | none => st.sessions ++ [newSession]
    | some _ => st.sessions
  let userMessage : Message := userMessageRecord text attachments now
  let updatedHistoryForUI := currentHistory ++ [userMessage]
  let sessions2 := updateSessionAt activeSessionId
      (setMessagesUpd updatedHistoryForUI) sessions1
  let trace : List Ev := [Ev.streamStart text attachments currentHistory st.thinkingBudget]
  let aiMessageId := toString (now + 1)
  let loopEnd := runStreamLoop activeSessionId aiMessageId updatedHistoryForUI now
      sessions2 outcome.chunks
  match outcome.error with
  | none =>
    { state := { sessions := loopEnd.sessions, currentSessionId := some activeSessionId,
                 isLoading := false, thinkingBudget := st.thinkingBudget },
      trace := trace }
  | some e =>
    let errorMessage : Message := errorMessageRecord e now
    let sessions4 := updateSessionAt activeSessionId
        (setMessagesUpd (updatedHistoryForUI ++ [errorMessage])) loopEnd.sessions
    { state := { sessions := sessions4, currentSessionId := some activeSessionId,
                 isLoading := false, thinkingBudget := st.thinkingBudget },
      trace := trace }

/-- Keyed put followed by keyed get of the same id returns the record
just put, on the replace branch. -/
theorem find_map_put (k : String) (v : ChatSession) :
    ∀ db : Store, db.any (fun p => p.1 == k) = true →
    (db.map (fun p => if p.1 == k then (k, v) else p)).find? (fun p => p.1 == k) = some (k, v) := by
  intro db
  induction db with
  | nil => intro h; cases h
  | cons q rest ih =>
    intro h
    by_cases hq : (q.1 == k) = true
    · simp only [List.map_cons, if_pos hq]
      rw [List.find?_cons_of_pos]
      simp
    · have hrest : rest.any (fun p => p.1 == k) = true := by
        rw [List.any_cons] at h
        rcases Bool.or_eq_true_iff.mp h with h1 | h1
        · exact absurd h1 hq
        · exact h1
      simp only [List.map_cons, if_neg hq]
      rw [List.find?_cons_of_neg]
      · exact ih hrest
      · simp at hq
        simp [hq]

/-- Keyed put followed by keyed get of the same id returns the record
just put, on the append branch. -/
theorem find_append_put (k : String) (v : ChatSession) :
    ∀ db : Store, db.any (fun p => p.1 == k) = false →
    (db ++ [(k, v)]).find? (fun p => p.1 == k) = some (k, v) := by
  intro db
  induction db with
  | nil =>
    intro _
    simp only [List.nil_append]
    rw [List.find?_cons_of_pos]
    simp
  | cons q rest ih =>
    intro h
    rw [List.any_cons] at h
    have hq : (q.1 == k) = false := by
      cases hc : (q.1 == k) with
      | true => rw [hc] at h; simp at h
      | false => rfl
    have hrest : rest.any (fun p => p.1 == k) = false := by
      cases hc : rest.any (fun p => p.1 == k) with
      | true => rw [hc] at h; simp at h
      | false => rfl
    rw [List.cons_append, List.find?_cons_of_neg]
    · exact ih hrest
    · simp at hq
      simp [hq]

/-- A record put into a store is retrievable under its session id. -/
theorem lookupStore_storePut (db : Store) (s : ChatSession) :
    lookupStore (storePut db s) s.id = some s := by
  unfold storePut lookupStore
  by_cases h : db.any (fun p => p.1 == s.id) = true
  · rw [if_pos h, find_map_put s.id s db h]
    rfl
  · have hf : db.any (fun p => p.1 == s.id) = false := by
      cases hc : db.any (fun p => p.1 == s.id) with
      | true => exact absurd hc h
      | false => rfl
    rw [if_neg h, find_append_put s.id s db hf]
    rfl

/-- The streaming loop never changes the list of session ids. -/
theorem streamLoop_ids (activeId aiId : String) (hist : List Message) (now : Nat) :
    ∀ (cs : List String) (S : List ChatSession) (a : String) (b : Bool),
    ((cs.foldl (applyChunk activeId aiId hist now)
        { sessions := S, accumulatedText := a, firstChunk := b }).sessions).map ChatSession.id
      = S.map ChatSession.id := by
  intro cs
  induction cs with
  | nil => intro S a b; rfl
  | cons c rest ih =>
    intro S a b
    rw [List.foldl_cons]
    cases b with
    | true =>
      have hstep : applyChunk activeId aiId hist now ⟨S, a, true⟩ c
          = { sessions := updateSessionAt activeId
                (fun s => { s with messages := hist ++ [mkAiMessage aiId (a ++ c) now] }) S,
              accumulatedText := a ++ c, firstChunk := false } := by
        simp [applyChunk]
      rw [hstep, ih]
      exact updateSessionAt_ids activeId
        (fun s => { s with messages := hist ++ [mkAiMessage aiId (a ++ c) now] }) (fun _ => rfl) S
    | false =>
      have hstep : applyChunk activeId aiId hist now ⟨S, a, false⟩ c
          = { sessions := updateSessionAt activeId
                (fun s => { s with messages := s.messages.map (updateAiText aiId (a ++ c)) }) S,
              accumulatedText := a ++ c, firstChunk := false } := by
        simp [applyChunk]
      rw [hstep, ih]
      exact updateSessionAt_ids activeId
        (fun s => { s with messages := s.messages.map (updateAiText aiId (a ++ c)) })
        (fun _ => rfl) S

/-- The whole stream loop preserves the list of session ids. -/
theorem runStreamLoop_ids (activeId aiId : String) (hist : List Message) (now : Nat)
    (S : List ChatSession) (cs : List String) :
    (runStreamLoop activeId aiId hist now S cs).sessions.map ChatSession.id
      = S.map ChatSession.id :=
  streamLoop_ids activeId aiId hist now cs S "" true

/-- Membership in the session-id list survives an id-preserving update. -/
theorem mem_updateSessionAt_ids {k : String} (i : String) (f : ChatSession → ChatSession)
    (hid : ∀ s, (f s).id = s.id) {l : List ChatSession}
    (h : k ∈ l.map ChatSession.id) :
    k ∈ (updateSessionAt i f l).map ChatSession.id := by
  rw [updateSessionAt_ids i f hid]
  exact h

/-- Counterexample to claim C4 as stated: in the `App.tsx` variant of
`handleSendMessage` (lines 112-211), a send with no active session issues
no durable write at all during the call — its effect trace holds no put —
so no record with the new session's id is retrievable from a store that
saw only this call's effects. (Persistence in that variant happens only
through a debounced effect that runs later, if at all.) -/
theorem send_no_durable_write_in_app_variant :
    ((handleSendMessageApp
        { sessions := [], currentSessionId := none, isLoading := false, thinkingBudget := 0 }
        "Hello" [] 5 { chunks := ["Hi"], error := none }).trace.filterMap dbPutRecord = []) ∧
    lookupStore
      (applyTrace []
        (handleSendMessageApp
          { sessions := [], currentSessionId := none, isLoading := false, thinkingBudget := 0 }
          "Hello" [] 5 { chunks := ["Hi"], error := none }).trace)
      (toString 5) = none := by
  constructor
  · rfl
  · rfl

/-- Claim C4 (amended, holds for the `part_000` variant): for every
send-message call made with no active session, a new ChatSession (id and
createdAt taken from the clock, derived title, empty message list) is
saved to the durable store as the very first effect of the call — before
the completion stream is consumed — and is inserted into the in-memory
collection and made active; applying that put to any store makes a record
with that id retrievable, even if the stream never starts or never
completes. (The `App.tsx` variant performs no durable write during the
call; see the counterexample.) -/
theorem send_persists_new_session (st : AppState) (text : String)
    (attachments : List Attachment) (now : Nat) (outcome : StreamOutcome)
    (h : st.currentSessionId = none) :
    (handleSendMessage st text attachments now outcome).trace.head?
      = some (Ev.dbPut (newSessionRecord text attachments now)) ∧
    (handleSendMessage st text attachments now outcome).state.currentSessionId
      = some (toString now) ∧
    toString now ∈ (handleSendMessage st text attachments now outcome).state.sessions.map
        ChatSession.id ∧
    (∀ db : Store,
      lookupStore (storePut db (newSessionRecord text attachments now)) (toString now)
      = some (newSessionRecord text attachments now)) := by
  obtain ⟨chunks, err⟩ := outcome
  refine ⟨?_, ?_, ?_, ?_⟩
  · cases err with
    | none => simp [handleSendMessage, h]
    | some e => simp [handleSendMessage, h]
  · cases err with
    | none => simp [handleSendMessage, h, newSessionRecord]
    | some e => simp [handleSendMessage, h, newSessionRecord]
  · cases err with
    | none =>
      simp only [handleSendMessage, h]
      rw [runStreamLoop_ids]
      apply mem_updateSessionAt_ids
      · intro s; rfl
      · simp [newSessionRecord]
    | some e =>
      simp only [handleSendMessage, h]
      apply mem_updateSessionAt_ids
      · intro s; rfl
      · rw [runStreamLoop_ids]
        apply mem_updateSessionAt_ids
        · intro s; rfl
        · simp [newSessionRecord]
  · intro db
    exact lookupStore_storePut db (newSessionRecord text attachments now)

/-- Witness for C4 (amended): a concrete first send; the first effect is
the put of the new session, which is then retrievable from the store. -/
theorem send_persists_new_session_check :
    (({ sessions := [], currentSessionId := none, isLoading := false,
        thinkingBudget := 0 } : AppState).currentSessionId = none) ∧
    ((handleSendMessage
        { sessions := [], currentSessionId := none, isLoading := false, thinkingBudget := 0 }
        "Hello" [] 5 { chunks := ["Hi", " there"], error := none }).trace.head?
      = some (Ev.dbPut (newSessionRecord "Hello" [] 5)) ∧
     (handleSendMessage
        { sessions := [], currentSessionId := none, isLoading := false, thinkingBudget := 0 }
        "Hello" [] 5 { chunks := ["Hi", " there"], error := none }).state.currentSessionId
      = some (toString 5) ∧
     toString 5 ∈ (handleSendMessage
        { sessions := [], currentSessionId := none, isLoading := false, thinkingBudget := 0 }
        "Hello" [] 5 { chunks := ["Hi", " there"], error := none }).state.sessions.map
        ChatSession.id ∧
     (∀ db : Store,
       lookupStore (storePut db (newSessionRecord "Hello" [] 5)) (toString 5)
       = some (newSessionRecord "Hello" [] 5))) :=
  ⟨rfl,
   send_persists_new_session
     { sessions := [], currentSessionId := none, isLoading := false, thinkingBudget := 0 }
     "Hello" [] 5 { chunks := ["Hi", " there"], error := none } rfl⟩

/-- Lookup of the active session through two successive id-preserving
updates of it. -/
theorem error_path_messages (aId : String) (f g : ChatSession → ChatSession)
    (hf : ∀ s, (f s).id = s.id) (hg : ∀ s, (g s).id = s.id)
    (l : List ChatSession) (s0 : ChatSession)
    (h : l.find? (fun s => s.id == aId) = some s0) :
    ((updateSessionAt aId g (updateSessionAt aId f l)).find?
        (fun s => s.id == aId)).map ChatSession.messages
      = some ((g (f s0)).messages) := by
  have h1 := updateSessionAt_find aId f hf l s0 h
  have h2 := updateSessionAt_find aId g hg (updateSessionAt aId f l) (f s0) h1
  rw [h2]
  rfl

/-- True when the active-session pointer is either null or points at a
session present in the in-memory collection. -/
def activeSessionOk (st : AppState) : Bool :=
  match st.currentSessionId with
  | none => true
  | some i => (st.sessions.find? (fun s => s.id == i)).isSome

/-- Claim C5: error substitution. If the completion stream raises before
yielding any fragment (no chunks, then an error with a non-empty message),
the active session's in-memory message list after the call is exactly the
pre-send messages followed by the user message and then by exactly one
`isError` message whose text is the error's message — no partial model
message remains. -/
theorem error_substitution (st : AppState) (text : String) (attachments : List Attachment)
    (now : Nat) (e : String)
    (hactive : activeSessionOk st = true) (he : e ≠ "") :
    (errorMessageRecord e now).text = e ∧
    (errorMessageRecord e now).isError = true ∧
    ∃ sid : String,
      (handleSendMessage st text attachments now
          { chunks := [], error := some e }).state.currentSessionId = some sid ∧
      ((handleSendMessage st text attachments now
          { chunks := [], error := some e }).state.sessions.find?
          (fun s => s.id == sid)).map ChatSession.messages
        = some (currentMessages st
            ++ [userMessageRecord text attachments now, errorMessageRecord e now]) := by
  refine ⟨by simp [errorMessageRecord, jsOr, he], rfl, ?_⟩
  cases hc : st.currentSessionId with
  | none =>
    refine ⟨(newSessionRecord text attachments now).id, ?_, ?_⟩
    · simp [handleSendMessage, hc]
    · simp only [handleSendMessage, hc, runStreamLoop, List.foldl_nil]
      have hf1 : (newSessionRecord text attachments now :: st.sessions).find?
            (fun s => s.id == (newSessionRecord text attachments now).id)
          = some (newSessionRecord text attachments now) :=
        List.find?_cons_of_pos _ (by simp)
      rw [error_path_messages (newSessionRecord text attachments now).id
        (appendUserUpd ([] ++ [userMessageRecord text attachments now]) now)
        (setMessagesUpd (([] ++ [userMessageRecord text attachments now])
            ++ [errorMessageRecord e now]))
        (fun _ => rfl) (fun _ => rfl) _ _ hf1]
      simp [appendUserUpd, setMessagesUpd, currentMessages, hc]
  | some i =>
    have hsome : (st.sessions.find? (fun s => s.id == i)).isSome = true := by
      simpa [activeSessionOk, hc] using hactive
    obtain ⟨s0, hf0⟩ := Option.isSome_iff_exists.mp hsome
    refine ⟨i, ?_, ?_⟩
    · simp [handleSendMessage, hc]
    · simp only [handleSendMessage, hc, runStreamLoop, List.foldl_nil]
      rw [error_path_messages i
        (appendUserUpd (currentMessages st ++ [userMessageRecord text attachments now]) now)
        (setMessagesUpd ((currentMessages st ++ [userMessageRecord text attachments now])
            ++ [errorMessageRecord e now]))
        (fun _ => rfl) (fun _ => rfl) _ _ hf0]
      simp [appendUserUpd, setMessagesUpd]

/-- The state of a freshly opened app with no history. -/
def emptyState : AppState :=
  { sessions := [], currentSessionId := none, isLoading := false, thinkingBudget := 0 }

/-- Witness for C5: a failing stream on a fresh conversation; the session
ends with the user message and exactly one error message. -/
theorem error_substitution_check :
    activeSessionOk emptyState = true ∧
    ("boom" : String) ≠ "" ∧
    ((errorMessageRecord "boom" 3).text = "boom" ∧
     (errorMessageRecord "boom" 3).isError = true ∧
     ∃ sid : String,
       (handleSendMessage emptyState "q" [] 3
           { chunks := [], error := some "boom" }).state.currentSessionId = some sid ∧
       ((handleSendMessage emptyState "q" [] 3
           { chunks := [], error := some "boom" }).state.sessions.find?
           (fun s => s.id == sid)).map ChatSession.messages
         = some (currentMessages emptyState
             ++ [userMessageRecord "q" [] 3, errorMessageRecord "boom" 3])) :=
  ⟨rfl, by decide, error_substitution emptyState "q" [] 3 "boom" rfl (by decide)⟩

/-- Claim C6: for every send-message call, exactly one stream call is
issued, and its history argument is the session's message list exactly as
it stood before the new user message was appended — the user message
itself travels only as the separate prompt/attachments arguments and is
not in the history; the formatted history the model receives drops
exactly the error-flagged messages and keeps the remaining messages in
their original order. -/
theorem history_passed_to_model (st : AppState) (text : String)
    (attachments : List Attachment) (now : Nat) (outcome : StreamOutcome)
    (hfresh : ∀ m ∈ currentMessages st, m.id ≠ toString now) :
    (handleSendMessage st text attachments now outcome).trace.filterMap streamStartArgs
      = [(text, attachments, currentMessages st, st.thinkingBudget)] ∧
    formatHistory (currentMessages st)
      = ((currentMessages st).filter (fun m => !m.isError)).map msgToContent ∧
    ((currentMessages st).filter (fun m => !m.isError)).Sublist (currentMessages st) ∧
    userMessageRecord text attachments now ∉ currentMessages st := by
  obtain ⟨chunks, err⟩ := outcome
  refine ⟨?_, rfl, List.filter_sublist _, ?_⟩
  · cases hc : st.currentSessionId with
    | none =>
      cases err with
      | none => simp [handleSendMessage, hc, streamStartArgs, currentMessages]
      | some e =>
        cases hfind : st.sessions.find?
            (fun s => s.id == (newSessionRecord text attachments now).id) with
        | none => simp [handleSendMessage, hc, hfind, streamStartArgs, currentMessages]
        | some s1 => simp [handleSendMessage, hc, hfind, streamStartArgs, currentMessages]
    | some i =>
      cases err with
      | none =>
        cases hfind : st.sessions.find? (fun s => s.id == i) with
        | none => simp [handleSendMessage, hc, hfind, streamStartArgs]
        | some s0 => simp [handleSendMessage, hc, hfind, streamStartArgs]
      | some e =>
        cases hfind : st.sessions.find? (fun s => s.id == i) with
        | none => simp [handleSendMessage, hc, hfind, streamStartArgs]
        | some s0 => simp [handleSendMessage, hc, hfind, streamStartArgs]
  · intro hmem
    exact hfresh _ hmem rfl

/-- A concrete session with one clean and one error-flagged message, used
to instantiate the history claim. -/
def sessionC : ChatSession :=
  { id := "c", title := "hist",
    messages :=
      [{ id := "m1", role := Role.user, text := "hi", attachments := [], timestamp := 1,
         isError := false },
       { id := "m2", role := Role.model, text := "bad", attachments := [], timestamp := 2,
         isError := true }],
    createdAt := 3, updatedAt := none }

/-- The state of an app displaying the session with an error message. -/
def stateC : AppState :=
  { sessions := [sessionC], currentSessionId := some "c", isLoading := false,
    thinkingBudget := 7 }

/-- Witness for C6: a send into a session holding one clean and one
error-flagged message; the stream call carries exactly the pre-append
history and the formatted history drops the error message. -/
theorem history_passed_to_model_check :
    (∀ m ∈ currentMessages stateC, m.id ≠ toString 9) ∧
    ((handleSendMessage stateC "x" [] 9
        { chunks := ["ok"], error := none }).trace.filterMap streamStartArgs
      = [("x", [], currentMessages stateC, 7)] ∧
     formatHistory (currentMessages stateC)
      = ((currentMessages stateC).filter (fun m => !m.isError)).map msgToContent ∧
     ((currentMessages stateC).filter (fun m => !m.isError)).Sublist
        (currentMessages stateC) ∧
     userMessageRecord "x" [] 9 ∉ currentMessages stateC) :=
  ⟨by decide,
   history_passed_to_model stateC "x" [] 9 { chunks := ["ok"], error := none } (by decide)⟩

end ChatApp
